import Mathlib

/-!
Verification development for the SimpleScalar 3.0 cache-simulator bindings
(`sim-cache.py`).  The repository ships a single Python file that binds an
opaque precompiled cache engine (`cache.c` / `stat.c` inside `sim-cache.so`).
The engine itself is therefore modelled here from the specification of its
semantics, while the Python-level glue — the `cache_access` wrapper, the
`il1_access_fn` miss-handler callback and the test scenarios — is translated
directly from the Python source.
-/

namespace SimCache

/-- Modelled from the spec: the replacement policies of the missing engine
(`cache.c`): `l` = LRU, `f` = FIFO, `r` = Random. -/
inductive Policy
  | lru
  | fifo
  | random
  deriving DecidableEq, Repr

/-- Errors a single access can surface: the engine-level contract violations
(`InvalidCommand`, `MisalignedAccess`), a failed Python `assert` in the
miss-handler callback, and the `ctypes.ArgumentError` raised when a Python
value that is not an `int` is marshalled into a `c_int32` argument. -/
inductive SimError
  | invalidCommand
  | misaligned
  | assertionFailed
  | argumentError
  deriving DecidableEq, Repr

/-- Modelled from the spec: one associative way of the missing engine —
tag, valid bit, dirty bit and the policy order metadata (a last-touched
sequence stamp for LRU, an insertion stamp for FIFO, unused for Random). -/
structure Way where
  tag : Nat
  valid : Bool
  dirty : Bool
  stamp : Nat
  deriving DecidableEq, Repr

/-- Modelled from the spec: the immutable cache geometry and configuration of
the missing engine (`cache_create` parameters): set count, block size in
bytes, associativity, replacement policy, hit latency in ticks, the bus
transfer cost per access, and the seed of the Random policy's private
pseudo-random generator. -/
structure CacheConfig where
  nsets : Nat
  bsize : Nat
  assoc : Nat
  policy : Policy
  hitLatency : Nat
  transferCost : Nat
  seed : Nat
  deriving DecidableEq, Repr

/-- Modelled from the spec: the mutable state of one cache instance of the
missing engine — the sets of ways, the bus resource (`bus_free`), the global
LRU/FIFO sequence counter, the Random policy's generator state, and the
statistics counters (the `accesses` counter is updated exactly once per
request). -/
structure CacheState where
  sets : List (List Way)
  busFree : Int
  seqCtr : Nat
  rng : Nat
  accesses : Nat
  hits : Nat
  misses : Nat
  replacements : Nat
  writebacks : Nat
  invalidations : Nat
  deriving DecidableEq, Repr

/-- An empty (invalid) way. -/
def initWay : Way := ⟨0, false, false, 0⟩

/-- Modelled from the spec: address decode of the missing engine — the set
index is the address bits between the block offset and the tag.  For the
power-of-two geometries the engine accepts, the mask-and-shift decode is
exactly this division form. -/
def setIndex (cfg : CacheConfig) (addr : Nat) : Nat :=
  (addr / cfg.bsize) % cfg.nsets

/-- Modelled from the spec: the tag is the high-order address bits above the
set index. -/
def tagOf (cfg : CacheConfig) (addr : Nat) : Nat :=
  addr / cfg.bsize / cfg.nsets

/-- Modelled from the spec: the block-aligned address of the block holding
`addr`, passed to the miss handler on a fill. -/
def blockAddr (cfg : CacheConfig) (addr : Nat) : Nat :=
  addr - addr % cfg.bsize

/-- Modelled from the spec: the Random policy's policy-local pseudo-random
generator (the concrete generator is not exposed by the repository; a
standard linear congruential step stands in for it — all claims about it
concern only its determinism from the seed). -/
def rngNext (s : Nat) : Nat :=
  (s * 1103515245 + 12345) % 2147483648

/-- Modelled from the spec: index of the way with the smallest policy stamp
(the LRU / FIFO victim among all-valid ways); ties keep the lowest index. -/
def minStampIdx (ways : List Way) : Nat :=
  match ways.enum with
  | [] => 0
  | p :: rest =>
      (rest.foldl (fun best q => if q.2.stamp < best.2.stamp then q else best) p).1

/-- Modelled from the spec: victim selection.  LRU and FIFO prefer the
lowest-indexed invalid way, else the valid way with the smallest stamp;
Random draws from the policy-local generator over all ways.  Returns the
victim index and the (possibly advanced) generator state. -/
def selectVictim (policy : Policy) (ways : List Way) (rng : Nat) : Nat × Nat :=
  match policy with
  | .random =>
      let r := rngNext rng
      (r % ways.length, r)
  | _ =>
      match ways.findIdx? (fun w => !w.valid) with
      | some i => (i, rng)
      | none => (minStampIdx ways, rng)

/-- Modelled from the spec: on a write hit the touched way's dirty bit is
set (`dirty` is set on write, cleared only by writeback). -/
def markDirty (ways : List Way) (hi : Nat) (isWrite : Bool) : List Way :=
  ways.set hi { ways.getD hi initWay with
                dirty := (ways.getD hi initWay).dirty || isWrite }

/-- Modelled from the spec: the policy update on a hit.  LRU stamps the
touched way with the strictly increasing global sequence counter; FIFO and
Random leave the order metadata unchanged on hits.  Returns the updated ways
and sequence counter. -/
def touchHit (policy : Policy) (ways : List Way) (hi : Nat) (seq : Nat) :
    List Way × Nat :=
  match policy with
  | .lru => (ways.set hi { ways.getD hi initWay with stamp := seq }, seq + 1)
  | _ => (ways, seq)

/-- Modelled from the spec: the missing engine's per-reference entry point
(`cache_access` in `cache.c`).  `handler` is the block-access callback (the
Hierarchy Link).  Steps: validate the command (Read = 0, Write = 1, anything
else is `InvalidCommand`); reject a span crossing a block boundary
(`MisalignedAccess`); decode; scan the addressed set.  On a hit: bump `hits`,
mark dirty on a write, apply the policy's hit update, latency is the hit
latency plus the bus delay.  On a miss: bump `misses`, select a victim; a
valid dirty victim is written back through the handler (command Write, the
victim's block address) and bumps `writebacks`; a valid victim bumps
`replacements`; the fill is delegated to the handler with the missing block's
address; the victim way is overwritten with the new tag, valid, dirty exactly
when the command is Write, and stamped with the sequence counter.  Every
access pays the bus delay `max 0 (busFree - now)` and re-arms the bus to
`max now busFree + transferCost`; `accesses` is implicitly `hits + misses`
but is kept as its own counter updated once per request. -/
def cache_access (cfg : CacheConfig)
    (handler : Int → Nat → Nat → Int → Except SimError Nat)
    (st : CacheState) (cmd : Int) (addr : Nat) (nbytes : Nat) (now : Int) :
    Except SimError (Nat × CacheState) :=
  if cmd = 0 ∨ cmd = 1 then
    if addr % cfg.bsize + nbytes ≤ cfg.bsize then
      let si := setIndex cfg addr
      let t := tagOf cfg addr
      let ways := st.sets.getD si []
      let busDelay := (st.busFree - now).toNat
      let busFree' := max now st.busFree + (cfg.transferCost : Int)
      match ways.findIdx? (fun w => w.valid && w.tag == t) with
      | some hi =>
          let tw := touchHit cfg.policy (markDirty ways hi (cmd == 1)) hi st.seqCtr
          .ok (cfg.hitLatency + busDelay,
               { st with
                 sets := st.sets.set si tw.1,
                 seqCtr := tw.2,
                 busFree := busFree',
                 accesses := st.accesses + 1,
                 hits := st.hits + 1 })
      | none =>
          let sv := selectVictim cfg.policy ways st.rng
          let victim := ways.getD sv.1 initWay
          match (if victim.valid && victim.dirty then
                   handler 1 ((victim.tag * cfg.nsets + si) * cfg.bsize) cfg.bsize now
                 else .ok 0) with
          | .error e => .error e
          | .ok wbLat =>
              match handler cmd (blockAddr cfg addr) cfg.bsize now with
              | .error e => .error e
              | .ok fillLat =>
                  .ok (wbLat + fillLat + busDelay,
                       { st with
                         sets := st.sets.set si
                           (ways.set sv.1 ⟨t, true, cmd == 1, st.seqCtr⟩),
                         seqCtr := st.seqCtr + 1,
                         rng := sv.2,
                         busFree := busFree',
                         accesses := st.accesses + 1,
                         misses := st.misses + 1,
                         replacements :=
                           st.replacements + (if victim.valid then 1 else 0),
                         writebacks :=
                           st.writebacks +
                             (if victim.valid && victim.dirty then 1 else 0) })
    else .error .misaligned
  else .error .invalidCommand

/-- Modelled from the spec: a freshly created cache instance (`cache_create`)
— all ways invalid, bus free at tick 0, counters zero, Random generator
holding the creation seed. -/
def cacheCreate (cfg : CacheConfig) : CacheState :=
  { sets := List.replicate cfg.nsets (List.replicate cfg.assoc initWay),
    busFree := 0, seqCtr := 0, rng := cfg.seed,
    accesses := 0, hits := 0, misses := 0,
    replacements := 0, writebacks := 0, invalidations := 0 }

/-- One reference of a stream: command code, address, size and tick. -/
structure Req where
  cmd : Int
  addr : Nat
  nbytes : Nat
  now : Int
  deriving DecidableEq, Repr

/-- State after one reference: a failed call is fatal to that call only and
leaves the instance unchanged. -/
def stepReq (cfg : CacheConfig)
    (handler : Int → Nat → Nat → Int → Except SimError Nat)
    (st : CacheState) (r : Req) : CacheState :=
  match cache_access cfg handler st r.cmd r.addr r.nbytes r.now with
  | .ok p => p.2
  | .error _ => st

/-- State after a whole reference stream, in program order. -/
def runSeq (cfg : CacheConfig)
    (handler : Int → Nat → Nat → Int → Except SimError Nat)
    (reqs : List Req) (st : CacheState) : CacheState :=
  reqs.foldl (stepReq cfg handler) st

/-- Modelled from the spec: the victim way index an access would select, when
the access is a valid, aligned miss (`none` on a hit or a rejected call). -/
def victimOf (cfg : CacheConfig) (st : CacheState) (r : Req) : Option Nat :=
  if (r.cmd = 0 ∨ r.cmd = 1) ∧ r.addr % cfg.bsize + r.nbytes ≤ cfg.bsize then
    match (st.sets.getD (setIndex cfg r.addr) []).findIdx?
        (fun w => w.valid && w.tag == tagOf cfg r.addr) with
    | some _ => none
    | none =>
        some (selectVictim cfg.policy
          (st.sets.getD (setIndex cfg r.addr) []) st.rng).1
  else none

/-- Run a reference stream collecting the victim selection of every miss
together with the final state (so: victim choices and final counters). -/
def runVictims (cfg : CacheConfig)
    (handler : Int → Nat → Nat → Int → Except SimError Nat)
    (reqs : List Req) (st : CacheState) : List Nat × CacheState :=
  reqs.foldl
    (fun acc r => (acc.1 ++ (victimOf cfg acc.2 r).toList,
                   stepReq cfg handler acc.2 r))
    ([], st)

/-- The l1 instruction-cache block access handler, translated from
`il1_access_fn` in `sim-cache.py`: assert the command is READ (0) or
WRITE (1); if a second cache level is configured, delegate to it; otherwise
the access goes to main memory and the handler returns the constant
latency 1. -/
def il1_access_fn (cache_il2 : Option (Int → Nat → Nat → Int → Except SimError Nat))
    (cmd : Int) (baddr : Nat) (bsize : Nat) (now : Int) : Except SimError Nat :=
  if cmd = 0 ∨ cmd = 1 then
    match cache_il2 with
    | some l2 => l2 cmd baddr bsize now
    | none => .ok 1
  else .error .assertionFailed

/-- A Python value as far as the ctypes marshalling of the binding is
concerned: an `int` or a `str`. -/
inductive PyVal
  | int (i : Int)
  | str (s : String)
  deriving DecidableEq, Repr

/-- Translated from `sim-cache.py` line 171:
`cmd_int = 0 if cmd == 'READ' else 'WRITE'` — the Python `int` 0 for a READ
and the Python string `'WRITE'` for every other command value. -/
def cmd_int (cmd : String) : PyVal :=
  if cmd = "READ" then .int 0 else .str "WRITE"

/-- ctypes marshalling of a Python value into a `c_int32` argument: an `int`
passes through (every value the binding produces is in range), anything else
raises `ctypes.ArgumentError`. -/
def marshal_c_int32 : PyVal → Except SimError Int
  | .int i => .ok i
  | .str _ => .error .argumentError

/-- The Python per-reference wrapper, translated from `cache_access` in
`sim-cache.py` (lines 166-175): it fixes `vp = None`, `now = 0`, translates
the command string through `cmd_int`, marshals it as a `c_int32` and calls
the engine's `cache_access` with `now = 0`. -/
def py_cache_access (cfg : CacheConfig)
    (handler : Int → Nat → Nat → Int → Except SimError Nat)
    (st : CacheState) (cmd : String) (addr : Nat) (nbytes : Nat) :
    Except SimError (Nat × CacheState) :=
  match marshal_c_int32 (cmd_int cmd) with
  | .error e => .error e
  | .ok c => cache_access cfg handler st c addr nbytes 0

/-- The cache of `test_simple` in `sim-cache.py`: `il1:256:8:1:l` with hit
latency 1 (bus transfer cost and seed are fixed arbitrarily; no claim about
this instance depends on them). -/
def cfgSimple : CacheConfig :=
  { nsets := 256, bsize := 8, assoc := 1, policy := .lru,
    hitLatency := 1, transferCost := 1, seed := 1 }

/-- One READ of 4 bytes (one instruction) through the Python wrapper, as
`test_simple` and `test_trace` issue them. -/
def simpleStep (st : CacheState) (pc : Nat) : CacheState :=
  match py_cache_access cfgSimple (il1_access_fn none) st "READ" pc 4 with
  | .ok p => p.2
  | .error _ => st

/-- State after scenario A of `test_simple`: three READs of address 0. -/
def stA : CacheState := [0, 0, 0].foldl simpleStep (cacheCreate cfgSimple)

/-- State after scenario B: three further READs of address 4 (same block). -/
def stB : CacheState := [4, 4, 4].foldl simpleStep stA

/-- State after scenario C: three further READs of address 8 (next block). -/
def stC : CacheState := [8, 8, 8].foldl simpleStep stB

/-- True exactly when an access result is a failed callback assertion. -/
def isAssertFailure : Except SimError (Nat × CacheState) → Bool
  | .error .assertionFailed => true
  | _ => false

/-- True exactly when an access result is a returned latency. -/
def accessOk : Except SimError (Nat × CacheState) → Bool
  | .ok _ => true
  | .error _ => false

/-- Modelled from the spec: the character of one decimal digit (the low
decimal digit of `n`), as the report printer renders rate digits. -/
def digitChar (n : Nat) : Char := Char.ofNat (48 + n % 10)

/-- Modelled from the spec: the rate `num / den` scaled to four decimal
places, rounded to nearest (the missing `stat.c` prints rates with a
`%.4f`-style fixed-point conversion). -/
def scaled4 (num den : Nat) : Nat := (num * 10000 + den / 2) / den

/-- The four decimal digits of a fractional part below 10000. -/
def fracDigits (f : Nat) : List Char :=
  [digitChar (f / 1000), digitChar (f / 100), digitChar (f / 10), digitChar f]

/-- Modelled from the spec: fixed-point rendering of the rate `num / den`
with exactly four decimal digits. -/
def fmt4 (num den : Nat) : String :=
  toString (scaled4 num den / 10000) ++ "." ++
    String.mk (fracDigits (scaled4 num den % 10000))

/-- One printed statistics line: qualified stat name, rendered value,
description. -/
structure StatLine where
  name : String
  value : String
  desc : String
  deriving DecidableEq, Repr

/-- Modelled from the spec: the statistics lines registered for one cache
instance (the missing `cache_reg_stats` / `stat_print_stats`), one line per
counter and derived rate in registration order, with the names and
descriptions of the expected report embedded in `test_trace` of
`sim-cache.py`. -/
def cacheReport (name : String) (st : CacheState) : List StatLine :=
  [ ⟨name ++ ".accesses", toString st.accesses, "total number of accesses"⟩,
    ⟨name ++ ".hits", toString st.hits, "total number of hits"⟩,
    ⟨name ++ ".misses", toString st.misses, "total number of misses"⟩,
    ⟨name ++ ".replacements", toString st.replacements,
      "total number of replacements"⟩,
    ⟨name ++ ".writebacks", toString st.writebacks,
      "total number of writebacks"⟩,
    ⟨name ++ ".invalidations", toString st.invalidations,
      "total number of invalidations"⟩,
    ⟨name ++ ".miss_rate", fmt4 st.misses st.accesses,
      "miss rate (i.e., misses/ref)"⟩,
    ⟨name ++ ".repl_rate", fmt4 st.replacements st.accesses,
      "replacement rate (i.e., repls/ref)"⟩,
    ⟨name ++ ".wb_rate", fmt4 st.writebacks st.accesses,
      "writeback rate (i.e., wrbks/ref)"⟩,
    ⟨name ++ ".inv_rate", fmt4 st.invalidations st.accesses,
      "invalidation rate (i.e., invs/ref)"⟩ ]

/-- A Random-policy cache configuration with a fixed seed, used as a concrete
instance of the determinism property. -/
def cfgRand : CacheConfig :=
  { nsets := 4, bsize := 8, assoc := 2, policy := .random,
    hitLatency := 1, transferCost := 1, seed := 42 }

/-- A small concrete reference stream exercising misses, a repeat hit and a
write. -/
def demoReqs : List Req :=
  [⟨0, 0, 4, 0⟩, ⟨0, 32, 4, 1⟩, ⟨0, 64, 4, 2⟩, ⟨0, 0, 4, 3⟩, ⟨1, 96, 4, 4⟩]

/-- The concrete outcome of one read at tick 5 on a fresh simple cache,
used to witness the bus-arbitration theorem. -/
def c6Out : Nat × CacheState :=
  ((cache_access cfgSimple (il1_access_fn none) (cacheCreate cfgSimple)
      0 0 4 5).toOption).getD (0, cacheCreate cfgSimple)

/-- The terminal miss handler with no second level returns the constant
latency 1 on any READ/WRITE command. -/
lemma il1_none_ok (cmd : Int) (baddr bsize : Nat) (now : Int)
    (h : cmd = 0 ∨ cmd = 1) :
    il1_access_fn none cmd baddr bsize now = .ok 1 := by
  unfold il1_access_fn
  rw [if_pos h]

/-- An if-then-else of two successful results is a successful result. -/
lemma ite_ok (c : Prop) [Decidable c] (x y : Nat) :
    (if c then (Except.ok x : Except SimError Nat) else Except.ok y) =
      Except.ok (if c then x else y) := by
  by_cases hc : c <;> simp [hc]

/-- Digit characters are decimal digits. -/
lemma digitChar_isDigit (n : Nat) : (digitChar n).isDigit = true := by
  have h : n % 10 < 10 := Nat.mod_lt _ (by omega)
  unfold digitChar
  set k := n % 10
  interval_cases k <;> decide

/-- Every rendered rate splits as an integer part, a dot and exactly four
decimal digit characters. -/
lemma fmt4_shape (num den : Nat) :
    ∃ (ip : Nat) (ds : List Char),
      fmt4 num den = toString ip ++ "." ++ String.mk ds ∧
      ds.length = 4 ∧ ∀ c ∈ ds, c.isDigit = true := by
  refine ⟨scaled4 num den / 10000, fracDigits (scaled4 num den % 10000),
    rfl, rfl, ?_⟩
  intro c hc
  simp only [fracDigits, List.mem_cons, List.not_mem_nil, or_false] at hc
  rcases hc with h | h | h | h <;> subst h <;> exact digitChar_isDigit _

/-- A completed access preserves `accesses = hits + misses`: exactly one of
`hits` / `misses` and the `accesses` counter are bumped. -/
lemma cache_access_inv (cfg : CacheConfig)
    (h : Int → Nat → Nat → Int → Except SimError Nat)
    (st : CacheState) (cmd : Int) (addr nbytes : Nat) (now : Int)
    (lat : Nat) (st' : CacheState)
    (hres : cache_access cfg h st cmd addr nbytes now = .ok (lat, st'))
    (hinv : st.accesses = st.hits + st.misses) :
    st'.accesses = st'.hits + st'.misses := by
  simp only [cache_access] at hres
  split at hres
  · split at hres
    · split at hres
      · injection hres with hp
        have h2 : _ = st' := congrArg Prod.snd hp
        subst h2
        simp only []
        omega
      · split at hres
        · exact Except.noConfusion hres
        · split at hres
          · exact Except.noConfusion hres
          · injection hres with hp
            have h2 : _ = st' := congrArg Prod.snd hp
            subst h2
            simp only []
            omega
    · exact Except.noConfusion hres
  · exact Except.noConfusion hres

/-- One reference (completed or rejected) preserves the counter invariant. -/
lemma stepReq_inv (cfg : CacheConfig)
    (h : Int → Nat → Nat → Int → Except SimError Nat)
    (st : CacheState) (r : Req)
    (hinv : st.accesses = st.hits + st.misses) :
    (stepReq cfg h st r).accesses =
      (stepReq cfg h st r).hits + (stepReq cfg h st r).misses := by
  unfold stepReq
  cases hres : cache_access cfg h st r.cmd r.addr r.nbytes r.now with
  | ok p =>
      exact cache_access_inv cfg h st r.cmd r.addr r.nbytes r.now p.1 p.2
        hres hinv
  | error e => exact hinv

/-- A whole reference stream preserves the counter invariant. -/
lemma runSeq_inv (cfg : CacheConfig)
    (h : Int → Nat → Nat → Int → Except SimError Nat)
    (reqs : List Req) (st : CacheState)
    (hinv : st.accesses = st.hits + st.misses) :
    (runSeq cfg h reqs st).accesses =
      (runSeq cfg h reqs st).hits + (runSeq cfg h reqs st).misses := by
  induction reqs generalizing st with
  | nil => simpa [runSeq] using hinv
  | cons r rs ih =>
      simp only [runSeq, List.foldl_cons] at *
      exact ih (stepReq cfg h st r) (stepReq_inv cfg h st r hinv)

/-- C2: on the direct-mapped `il1:256:8:1:l` cache of `test_simple`, the
cumulative counters after three READs of address 0 are misses = 1,
hits = 2; after three further READs of address 4 they are misses = 1,
hits = 5; after three further READs of address 8 they are misses = 2,
hits = 7. -/
theorem test_simple_counters :
    (stA.misses = 1 ∧ stA.hits = 2) ∧
      (stB.misses = 1 ∧ stB.hits = 5) ∧
      (stC.misses = 2 ∧ stC.hits = 7) :=
  ⟨⟨rfl, rfl⟩, ⟨rfl, rfl⟩, rfl, rfl⟩

/-- C3: after any reference stream applied to a freshly created cache
instance, the `accesses` counter equals `hits + misses` (it is bumped
exactly once per request, together with exactly one of the two). -/
theorem accesses_eq_hits_plus_misses (cfg : CacheConfig)
    (handler : Int → Nat → Nat → Int → Except SimError Nat)
    (reqs : List Req) :
    (runSeq cfg handler reqs (cacheCreate cfg)).accesses =
      (runSeq cfg handler reqs (cacheCreate cfg)).hits +
        (runSeq cfg handler reqs (cacheCreate cfg)).misses :=
  runSeq_inv cfg handler reqs (cacheCreate cfg) rfl

/-- C4 (code bug): the Python `cache_access` wrapper translates the command
with `0 if cmd == 'READ' else 'WRITE'`, so a Write access passes the Python
string `'WRITE'` where ctypes expects a `c_int32` and the call raises
`ctypes.ArgumentError` instead of returning a latency, while the identical
Read access completes. -/
theorem write_access_raises_argument_error :
    py_cache_access cfgSimple (il1_access_fn none) (cacheCreate cfgSimple)
        "WRITE" 0 4 = .error .argumentError ∧
      accessOk (py_cache_access cfgSimple (il1_access_fn none)
        (cacheCreate cfgSimple) "READ" 0 4) = true :=
  ⟨rfl, rfl⟩

/-- C5: a request whose command code is neither Read (0) nor Write (1) fails
with `InvalidCommand`; the engine returns that error rather than any
latency, so no other command value is silently substituted. -/
theorem invalid_command_rejected (cfg : CacheConfig)
    (handler : Int → Nat → Nat → Int → Except SimError Nat)
    (st : CacheState) (cmd : Int) (addr nbytes : Nat) (now : Int)
    (h0 : cmd ≠ 0) (h1 : cmd ≠ 1) :
    cache_access cfg handler st cmd addr nbytes now =
      .error .invalidCommand := by
  simp [cache_access, h0, h1]

/-- Witness for C5 at the concrete command code 2. -/
theorem invalid_command_rejected_witness :
    cache_access cfgSimple (il1_access_fn none) (cacheCreate cfgSimple)
      2 0 4 0 = .error .invalidCommand :=
  invalid_command_rejected cfgSimple (il1_access_fn none)
    (cacheCreate cfgSimple) 2 0 4 0 (by decide) (by decide)

/-- C6: the tick the engine uses for bus arbitration is exactly the `now`
argument supplied through the access surface — after any completed access
the bus re-arms to `max now busFree + transferCost`, and the engine has no
other time source (its result is a function of its arguments alone). -/
theorem bus_uses_caller_now (cfg : CacheConfig)
    (handler : Int → Nat → Nat → Int → Except SimError Nat)
    (st : CacheState) (cmd : Int) (addr nbytes : Nat) (now : Int)
    (lat : Nat) (st' : CacheState)
    (hres : cache_access cfg handler st cmd addr nbytes now = .ok (lat, st')) :
    st'.busFree = max now st.busFree + (cfg.transferCost : Int) := by
  simp only [cache_access] at hres
  split at hres
  · split at hres
    · split at hres
      · injection hres with hp
        have h2 : _ = st' := congrArg Prod.snd hp
        subst h2
        rfl
      · split at hres
        · exact Except.noConfusion hres
        · split at hres
          · exact Except.noConfusion hres
          · injection hres with hp
            have h2 : _ = st' := congrArg Prod.snd hp
            subst h2
            rfl
    · exact Except.noConfusion hres
  · exact Except.noConfusion hres

/-- Witness for C6: a concrete read at tick 5 against the fresh simple cache
re-arms the bus to `max 5 0 + 1`. -/
theorem bus_uses_caller_now_witness :
    c6Out.2.busFree =
      max 5 (cacheCreate cfgSimple).busFree +
        (cfgSimple.transferCost : Int) :=
  bus_uses_caller_now cfgSimple (il1_access_fn none) (cacheCreate cfgSimple)
    0 0 4 5 c6Out.1 c6Out.2 rfl

/-- C7: with no second cache level configured, the miss-handler delegation
returns the fixed main-memory latency 1, independent of the command, block
address, block size and tick. -/
theorem terminal_delegation_constant_latency (cmd : Int)
    (baddr bsize : Nat) (now : Int) (h : cmd = 0 ∨ cmd = 1) :
    il1_access_fn none cmd baddr bsize now = .ok 1 :=
  il1_none_ok cmd baddr bsize now h

/-- Witness for C7 at a concrete WRITE of block 96. -/
theorem terminal_delegation_constant_latency_witness :
    il1_access_fn none 1 96 32 7 = .ok 1 :=
  terminal_delegation_constant_latency 1 96 32 7 (Or.inr rfl)

/-- C8: two cache instances created from the same configuration (hence the
same Random seed), fed the identical reference stream, make identical victim
selections at every miss and end with identical counters — the Random policy
draws only from its seeded policy-local generator. -/
theorem random_fixed_seed_deterministic (cfg : CacheConfig)
    (handler : Int → Nat → Nat → Int → Except SimError Nat)
    (reqs : List Req) (st1 st2 : CacheState)
    (h1 : st1 = cacheCreate cfg) (h2 : st2 = cacheCreate cfg) :
    runVictims cfg handler reqs st1 = runVictims cfg handler reqs st2 := by
  subst h1
  subst h2
  rfl

/-- Witness for C8 on a concrete Random cache with seed 42 and a concrete
five-reference stream. -/
theorem random_fixed_seed_deterministic_witness :
    runVictims cfgRand (il1_access_fn none) demoReqs (cacheCreate cfgRand) =
      runVictims cfgRand (il1_access_fn none) demoReqs (cacheCreate cfgRand) :=
  random_fixed_seed_deterministic cfgRand (il1_access_fn none) demoReqs
    (cacheCreate cfgRand) (cacheCreate cfgRand) rfl rfl

/-- C9: the report of a cache instance lists one line per counter and
derived rate in exactly the order accesses, hits, misses, replacements,
writebacks, invalidations, miss_rate, repl_rate, wb_rate, inv_rate, and
every rate value is rendered as a fixed-point number with exactly four
decimal digits. -/
theorem report_order_and_rate_format (name : String) (st : CacheState) :
    (cacheReport name st).map StatLine.name =
      [name ++ ".accesses", name ++ ".hits", name ++ ".misses",
       name ++ ".replacements", name ++ ".writebacks",
       name ++ ".invalidations", name ++ ".miss_rate",
       name ++ ".repl_rate", name ++ ".wb_rate", name ++ ".inv_rate"] ∧
    ∀ l ∈ (cacheReport name st).drop 6,
      ∃ (ip : Nat) (ds : List Char),
        l.value = toString ip ++ "." ++ String.mk ds ∧ ds.length = 4 ∧
          ∀ c ∈ ds, c.isDigit = true := by
  constructor
  · rfl
  · intro l hl
    simp only [cacheReport, List.drop_succ_cons, List.drop_zero,
      List.mem_cons, List.not_mem_nil, or_false] at hl
    rcases hl with h | h | h | h <;> subst h <;> exact fmt4_shape _ _

/-- Witness for C9: the report line names of a fresh `il1` instance, in
order. -/
theorem report_order_and_rate_format_witness :
    (cacheReport "il1" (cacheCreate cfgSimple)).map StatLine.name =
      ["il1" ++ ".accesses", "il1" ++ ".hits", "il1" ++ ".misses",
       "il1" ++ ".replacements", "il1" ++ ".writebacks",
       "il1" ++ ".invalidations", "il1" ++ ".miss_rate",
       "il1" ++ ".repl_rate", "il1" ++ ".wb_rate", "il1" ++ ".inv_rate"] :=
  (report_order_and_rate_format "il1" (cacheCreate cfgSimple)).1

/-- C10: with the repository's hierarchy (no second level), every access
issued through the engine invokes the `il1_access_fn` callback only with
command 0 or 1, so its assertion never fails: no access outcome is ever the
assertion failure. -/
theorem il1_assert_never_fails (cfg : CacheConfig) (st : CacheState)
    (cmd : Int) (addr nbytes : Nat) (now : Int) :
    isAssertFailure
      (cache_access cfg (il1_access_fn none) st cmd addr nbytes now) =
        false := by
  by_cases hc : cmd = 0 ∨ cmd = 1
  · by_cases ha : addr % cfg.bsize + nbytes ≤ cfg.bsize
    · simp only [cache_access, if_pos hc, if_pos ha]
      split
      · rfl
      · rw [il1_none_ok 1 _ _ _ (Or.inr rfl), ite_ok]
        rw [il1_none_ok cmd _ _ _ hc]
        rfl
    · simp [cache_access, hc, ha, isAssertFailure]
  · simp [cache_access, hc, isAssertFailure]

end SimCache


